import Mathlib

/-!
Verification of the gsr-bot OAuth/PKCE linking flow, token refresh service and
leaderboard ranking pass, shallowly embedded from the JavaScript sources
(src/index.js and the cron ranking variant).  Timestamps are epoch
milliseconds modelled as Int; network responses are passed in explicitly so
that the pure control flow of each handler can be stated and proved.
-/

/-- Linked Account Record, as stored in linked-drivers.json by src/index.js:
identity, tokens, expiry, and the historical rating fields maintained by the
ranking pass. -/
structure Driver where
  discordId : String
  iracingName : String
  customerId : Option Nat
  accessToken : String
  refreshToken : String
  expiresAt : Int
  lastIRating : Option Int
  lastChange : Option Int
  lastRank : Option Nat
deriving DecidableEq

/-- PKCE session record stored in the pkceStore object: the code verifier and
its creation time. -/
structure PkceEntry where
  verifier : String
  createdAt : Int
deriving DecidableEq

/-- Session TTL used by both handlers: 10 * 60 * 1000 ms. -/
def TEN_MINUTES : Int := 10 * 60 * 1000

/-- The pkceStore JS object, modelled as an association list from the state
string to the session entry.  Lookup takes the first binding; insertion
replaces any existing binding, matching JS object-key semantics. -/
abbrev PkceStore := List (String × PkceEntry)

/-- Reading pkceStore[key]: the value bound to the key, if any. -/
def lookupState (s : PkceStore) (k : String) : Option PkceEntry :=
  (s.find? (fun kv => kv.1 == k)).map (fun kv => kv.2)

/-- The JS statement delete pkceStore[key]. -/
def deleteState (s : PkceStore) (k : String) : PkceStore :=
  s.filter (fun kv => kv.1 != k)

/-- The JS assignment pkceStore[key] = entry, which replaces any previous
binding for the key. -/
def setState (s : PkceStore) (k : String) (e : PkceEntry) : PkceStore :=
  (k, e) :: deleteState s k

/-- Both handlers read the state query parameter as req.query.state or
"unknown".  A missing parameter is undefined and the empty string is falsy,
so both fall back to the literal key "unknown". -/
def stateKey (state : Option String) : String :=
  match state with
  | none => "unknown"
  | some s => if s = "" then "unknown" else s

/-- Eviction sweep in the /oauth/login handler: every entry older than
TEN_MINUTES is deleted from the store. -/
def sweepExpired (now : Int) (s : PkceStore) : PkceStore :=
  s.filter (fun kv => ! decide (now - kv.2.createdAt > TEN_MINUTES))

/-- Store effect of GET /oauth/login (src/index.js): store the fresh code
verifier with creation time now under the state key, then opportunistically
evict expired entries.  The generated verifier is passed in explicitly. -/
def oauthLoginStore (now : Int) (store : PkceStore) (state : Option String)
    (codeVerifier : String) : PkceStore :=
  sweepExpired now (setState store (stateKey state) ⟨codeVerifier, now⟩)

/-- Outcome of looking up and deleting the PKCE entry in the callback
handler: the entry may be absent, present but older than TEN_MINUTES, or
fresh, in which case its verifier is released for the token exchange. -/
inductive ConsumeResult where
  | notFound
  | expired
  | ok (verifier : String)
deriving DecidableEq

/-- First lines of GET /oauth/callback acting on the store: read the entry
for the key, delete it unconditionally, then branch on absence and on
expiry (now - createdAt > TEN_MINUTES). -/
def consumePkce (now : Int) (store : PkceStore) (key : String) :
    ConsumeResult × PkceStore :=
  let entry := lookupState store key
  let store2 := deleteState store key
  match entry with
  | none => (.notFound, store2)
  | some e =>
    if now - e.createdAt > TEN_MINUTES then (.expired, store2)
    else (.ok e.verifier, store2)

/-- Visible result of the guard portion of GET /oauth/callback: either an
HTTP 400 with the handler's message, or the verifier with which the token
exchange proceeds. -/
inductive CallbackOutcome where
  | badRequest (msg : String)
  | exchange (verifier : String)
deriving DecidableEq

/-- Guard portion of GET /oauth/callback (src/index.js): reject a missing or
empty code, then consume the PKCE entry for the state key; both the absent
and the expired case answer 400 with the same message, and only a fresh
entry lets the token exchange proceed with the stored verifier. -/
def oauthCallbackGate (now : Int) (store : PkceStore) (code : Option String)
    (state : Option String) : CallbackOutcome × PkceStore :=
  if code = none ∨ code = some "" then (.badRequest "Missing authorization code.", store)
  else
    match consumePkce now store (stateKey state) with
    | (.notFound, store2) =>
      (.badRequest "OAuth session expired. Please try linking again.", store2)
    | (.expired, store2) =>
      (.badRequest "OAuth session expired. Please try linking again.", store2)
    | (.ok v, store2) => (.exchange v, store2)

/-- Response of the provider token endpoint to a refresh_token POST, after
res.json(): success flag of the HTTP response, the new access token, the
optional new refresh token, and expires_in in seconds. -/
structure RefreshResponse where
  ok : Bool
  access_token : String
  refresh_token : Option String
  expires_in : Int
deriving DecidableEq

/-- In-place update of the first record with the given discordId, as done by
drivers.findIndex followed by field assignments in getValidAccessToken. -/
def updateFirstById (id : String) (f : Driver → Driver) : List Driver → List Driver
  | [] => []
  | d :: rest => if d.discordId = id then f d :: rest else d :: updateFirstById id f rest

/-- getValidAccessToken (src/index.js): return the stored token unchanged
inside the one-minute safety buffer; otherwise run the refresh exchange
(whose response is passed in), failing on a non-ok response, and on success
overwrite the token fields, fall back to the old refresh token when the
response omits one, set the new expiry, and persist the updated record into
the loaded store.  The triple returned is (token, updated user record,
persisted store). -/
def getValidAccessToken (now : Int) (user : Driver) (stored : List Driver)
    (resp : RefreshResponse) : Except String (String × Driver × List Driver) :=
  if now < user.expiresAt - 60000 then
    .ok (user.accessToken, user, stored)
  else if resp.ok = false then
    .error "Token refresh failed"
  else
    let user2 : Driver :=
      { user with
        accessToken := resp.access_token
        refreshToken := resp.refresh_token.getD user.refreshToken
        expiresAt := now + resp.expires_in * 1000 }
    let stored2 := updateFirstById user.discordId
      (fun d =>
        { d with
          accessToken := user2.accessToken
          refreshToken := user2.refreshToken
          expiresAt := user2.expiresAt }) stored
    .ok (user2.accessToken, user2, stored2)

/-- Observable outcome of the two-hop chart fetch inside getCurrentIRating:
whether anything threw, whether the first response was ok, the optional link
field, whether the second response was ok, and the values of the chart data
points in series order. -/
structure ChartFetch where
  threw : Bool
  rootOk : Bool
  link : Option String
  chartOk : Bool
  data : List Int
deriving DecidableEq

/-- getCurrentIRating (src/index.js): null when anything threw, when either
response is not ok, when the link field is missing, or when the data series
is empty; otherwise the value of the last data point. -/
def getCurrentIRating (f : ChartFetch) : Option Int :=
  if f.threw then none
  else if f.rootOk = false then none
  else
    match f.link with
    | none => none
    | some _ =>
      if f.chartOk = false then none
      else f.data.getLast?

/-- Per-record body of the rating update loop (cron pass and
showLeaderboard): on a fresh value, remember the previous value (or the
fresh one when none is stored), store the fresh value and the signed
difference; on a failed fetch leave the record untouched. -/
def updateDriver (d : Driver) (fresh : Option Int) : Driver :=
  match fresh with
  | none => d
  | some ir =>
    let old := d.lastIRating.getD ir
    { d with lastIRating := some ir, lastChange := some (ir - old) }

/-- Whole rating update phase of a ranking pass: each record is processed
independently with its own fetch outcome. -/
def ratingUpdatePass (fetch : Driver → Option Int) (l : List Driver) : List Driver :=
  l.map (fun d => updateDriver d (fetch d))

/-- Sort key of the leaderboard comparator: lastIRating with unset treated
as 0. -/
def ratingKey (d : Driver) : Int :=
  d.lastIRating.getD 0

/-- Order relation of the comparator (b.lastIRating ?? 0) - (a.lastIRating ?? 0):
a comes before b when its key is at least b's. -/
def ratingGE (a b : Driver) : Prop :=
  ratingKey b ≤ ratingKey a

instance : DecidableRel ratingGE :=
  fun a b => inferInstanceAs (Decidable (ratingKey b ≤ ratingKey a))

instance : IsTotal Driver ratingGE :=
  ⟨fun a b => le_total (ratingKey b) (ratingKey a)⟩

instance : IsTrans Driver ratingGE :=
  ⟨fun _ _ _ hab hbc => le_trans hbc hab⟩

/-- drivers.sort((a, b) => (b.lastIRating ?? 0) - (a.lastIRating ?? 0)):
Array.prototype.sort is stable, so the pass is modelled by a stable
insertion sort descending by ratingKey with ties kept in input order. -/
def sortByRatingDesc (l : List Driver) : List Driver :=
  List.insertionSort ratingGE l

/-- Rank-gain announcement of the cron pass: driver name, number of spots
gained, the new rank and the rating shown in the message. -/
structure RankEvent where
  name : String
  spots : Nat
  newRank : Nat
  rating : Option Int
deriving DecidableEq

/-- Body of the announcement loop at one position of the sorted list:
newRank is the index plus one, the old rank defaults to Infinity when unset
(in which case the Infinity guard suppresses the event), an event is pushed
exactly when the new rank is strictly smaller than the stored one, and the
record's lastRank is set to the new rank. -/
def announceStep (idx : Nat) (d : Driver) : Driver × Option RankEvent :=
  let newRank := idx + 1
  let ev : Option RankEvent :=
    match d.lastRank with
    | some oldRank =>
      if newRank < oldRank then
        some ⟨d.iracingName, oldRank - newRank, newRank, d.lastIRating⟩
      else none
    | none => none
  ({ d with lastRank := some newRank }, ev)

/-- The drivers.forEach announcement loop, starting at position idx:
returns the re-ranked records in order together with the list of pushed
announcements. -/
def announceFrom (idx : Nat) : List Driver → List Driver × List RankEvent
  | [] => ([], [])
  | d :: rest =>
    let step := announceStep idx d
    let tail := announceFrom (idx + 1) rest
    (step.1 :: tail.1,
      match step.2 with
      | some e => e :: tail.2
      | none => tail.2)

/-- Sort-and-announce phase of a ranking pass: stable descending sort, then
the announcement loop assigning lastRank = index + 1. -/
def rankAndAnnounce (l : List Driver) : List Driver × List RankEvent :=
  announceFrom 0 (sortByRatingDesc l)

/-- One full cron ranking pass: per-record rating update, then sort, rank
assignment and rank-gain announcements. -/
def cronPass (fetch : Driver → Option Int) (l : List Driver) :
    List Driver × List RankEvent :=
  rankAndAnnounce (ratingUpdatePass fetch l)

/-- Token endpoint response consumed by the callback handler on the
authorization_code exchange. -/
structure TokenData where
  access_token : String
  refresh_token : String
  expires_in : Int
deriving DecidableEq

/-- Record pushed by the callback handler: fresh identity, name and token
fields, while the three historical fields are carried over from the
previously linked record when one exists and left unset otherwise. -/
def mkLinkedDriver (now : Int) (discordId iracingName : String)
    (customerId : Option Nat) (tok : TokenData) (existing : Option Driver) : Driver :=
  { discordId := discordId
    iracingName := iracingName
    customerId := customerId
    accessToken := tok.access_token
    refreshToken := tok.refresh_token
    expiresAt := now + tok.expires_in * 1000
    lastIRating := existing.bind (fun e => e.lastIRating)
    lastChange := existing.bind (fun e => e.lastChange)
    lastRank := existing.bind (fun e => e.lastRank) }

/-- Store effect of a successful callback (src/index.js): find the existing
record for the id, remove every record with that id, and push the freshly
built record carrying over the historical fields. -/
def linkDriver (now : Int) (drivers : List Driver) (discordId iracingName : String)
    (customerId : Option Nat) (tok : TokenData) : List Driver :=
  let existing := drivers.find? (fun d => d.discordId == discordId)
  let filtered := drivers.filter (fun d => d.discordId != discordId)
  filtered ++ [mkLinkedDriver now discordId iracingName customerId tok existing]

/-- Successful callback upsert with the state parameter still optional: the
external id under which the account is linked is the state key. -/
def callbackSuccessStore (now : Int) (drivers : List Driver) (state : Option String)
    (iracingName : String) (customerId : Option Nat) (tok : TokenData) : List Driver :=
  linkDriver now drivers (stateKey state) iracingName customerId tok

/-- Row of the drivers table in the SQLite variant (src/src/db.js), with the
columns read by checkForPositionChanges: id, name, irating and the stored
last_rank (a nullable integer column). -/
structure DriverRow where
  id : Nat
  name : String
  irating : Int
  last_rank : Option Nat
deriving DecidableEq

/-- Message sent by checkForPositionChanges for one row: the driver name,
the stored and the newly computed rank, and the signed movement
oldRank - newRank (positive for an upward move, negative for a downward
one, selecting the up or down emoji). -/
structure PositionChangeEvent where
  name : String
  oldRank : Nat
  newRank : Nat
  movement : Int
deriving DecidableEq

/-- Loop body of checkForPositionChanges (src/src/announcer.js) at one
position of the list ordered by irating descending: newRank is the index
plus one; a message is sent whenever the stored last_rank is truthy (the
JS guard oldRank rejects both NULL and 0) and differs from newRank — in
either direction; last_rank is then saved as newRank. -/
def positionChangeStep (idx : Nat) (d : DriverRow) :
    DriverRow × Option PositionChangeEvent :=
  let newRank := idx + 1
  let ev : Option PositionChangeEvent :=
    match d.last_rank with
    | some oldRank =>
      if oldRank ≠ 0 ∧ oldRank ≠ newRank then
        some ⟨d.name, oldRank, newRank, (oldRank : Int) - (newRank : Int)⟩
      else none
    | none => none
  ({ d with last_rank := some newRank }, ev)

/-- The drivers.forEach loop of checkForPositionChanges starting at a given
position: the rows with their saved new ranks, and the sent messages in
order. -/
def positionChangesFrom (idx : Nat) :
    List DriverRow → List DriverRow × List PositionChangeEvent
  | [] => ([], [])
  | d :: rest =>
    let step := positionChangeStep idx d
    let tail := positionChangesFrom (idx + 1) rest
    (step.1 :: tail.1,
      match step.2 with
      | some e => e :: tail.2
      | none => tail.2)

/-- Order of the SELECT in checkForPositionChanges: rows by irating
descending. -/
def iratingGE (a b : DriverRow) : Prop :=
  b.irating ≤ a.irating

instance : DecidableRel iratingGE :=
  fun a b => inferInstanceAs (Decidable (b.irating ≤ a.irating))

/-- checkForPositionChanges (src/src/announcer.js): read the drivers table
ordered by irating descending, then run the announcement loop over it. -/
def checkForPositionChanges (rows : List DriverRow) :
    List DriverRow × List PositionChangeEvent :=
  positionChangesFrom 0 (List.insertionSort iratingGE rows)

/-! Helper lemmas about the PKCE store. -/

lemma lookupState_deleteState (s : PkceStore) (k : String) :
    lookupState (deleteState s k) k = none := by
  have h : List.find? (fun kv => kv.1 == k) (deleteState s k) = none := by
    rw [List.find?_eq_none]
    intro kv hkv
    simp only [deleteState] at hkv
    have h2 := (List.mem_filter.mp hkv).2
    simp only [bne_iff_ne, ne_eq] at h2
    simp [h2]
  simp [lookupState, h]

lemma lookupState_loginStore (now : Int) (s : PkceStore) (st : Option String)
    (v : String) :
    lookupState (oauthLoginStore now s st v) (stateKey st) = some ⟨v, now⟩ := by
  unfold oauthLoginStore sweepExpired setState
  have h0 : (! decide (now - now > TEN_MINUTES)) = true := by
    simp [TEN_MINUTES]
  rw [List.filter_cons, if_pos h0]
  unfold lookupState
  rw [List.find?_cons_of_pos _ (by simp)]
  rfl

lemma consumePkce_fresh (now : Int) (store : PkceStore) (k : String) (e : PkceEntry)
    (hlook : lookupState store k = some e)
    (hfresh : now - e.createdAt ≤ TEN_MINUTES) :
    consumePkce now store k = (.ok e.verifier, deleteState store k) := by
  unfold consumePkce
  rw [hlook]
  simp only [if_neg (not_lt.mpr hfresh)]

/-- C2: the callback handler deletes the stored PKCE entry for the given
state on first use, before the token exchange; consuming the same state
twice yields the stored verifier first and the not-found failure second, so
a replayed callback with the same state answers 400 and never reaches the
token exchange. -/
theorem claim_C2_pkce_single_use
    (now now2 : Int) (store : PkceStore) (k : String) (e : PkceEntry)
    (st : Option String) (c c2 : String)
    (hlook : lookupState store k = some e)
    (hfresh : now - e.createdAt ≤ TEN_MINUTES)
    (hst : stateKey st = k) (hc : c ≠ "") (hc2 : c2 ≠ "") :
    consumePkce now store k = (.ok e.verifier, deleteState store k)
    ∧ lookupState (deleteState store k) k = none
    ∧ consumePkce now2 (deleteState store k) k
        = (.notFound, deleteState (deleteState store k) k)
    ∧ (oauthCallbackGate now store (some c) st).1 = .exchange e.verifier
    ∧ (oauthCallbackGate now2 (deleteState store k) (some c2) st).1
        = .badRequest "OAuth session expired. Please try linking again." := by
  have h1 := consumePkce_fresh now store k e hlook hfresh
  have h2 := lookupState_deleteState store k
  have h3 : consumePkce now2 (deleteState store k) k
      = (.notFound, deleteState (deleteState store k) k) := by
    unfold consumePkce
    rw [h2]
  have hcode : ¬((some c : Option String) = none ∨ (some c : Option String) = some "") := by
    simp [hc]
  have hcode2 : ¬((some c2 : Option String) = none ∨ (some c2 : Option String) = some "") := by
    simp [hc2]
  refine ⟨h1, h2, h3, ?_, ?_⟩
  · unfold oauthCallbackGate
    rw [if_neg hcode, hst, h1]
  · unfold oauthCallbackGate
    rw [if_neg hcode2, hst, h3]

theorem claim_C2_pkce_single_use_witness :
    consumePkce 5 [("123", ⟨"v0", 0⟩)] "123"
        = (.ok "v0", deleteState [("123", ⟨"v0", 0⟩)] "123")
    ∧ lookupState (deleteState [("123", ⟨"v0", 0⟩)] "123") "123" = none
    ∧ consumePkce 7 (deleteState [("123", ⟨"v0", 0⟩)] "123") "123"
        = (.notFound, deleteState (deleteState [("123", ⟨"v0", 0⟩)] "123") "123")
    ∧ (oauthCallbackGate 5 [("123", ⟨"v0", 0⟩)] (some "x") (some "123")).1
        = .exchange "v0"
    ∧ (oauthCallbackGate 7 (deleteState [("123", ⟨"v0", 0⟩)] "123") (some "y")
        (some "123")).1
        = .badRequest "OAuth session expired. Please try linking again." :=
  claim_C2_pkce_single_use 5 7 [("123", ⟨"v0", 0⟩)] "123" ⟨"v0", 0⟩ (some "123")
    "x" "y" (by decide) (by decide) (by decide) (by decide) (by decide)

/-- C3: a PKCE session created at time T and consumed strictly later than
T plus ten minutes yields the expired outcome, distinct from success; the
entry is deleted by that consumption and the callback answers 400, so the
token exchange does not proceed. -/
theorem claim_C3_pkce_expiry
    (now T : Int) (store : PkceStore) (k : String) (e : PkceEntry)
    (st : Option String) (c : String)
    (hlook : lookupState store k = some e)
    (hT : e.createdAt = T)
    (hexp : T + TEN_MINUTES < now)
    (hst : stateKey st = k) (hc : c ≠ "") :
    consumePkce now store k = (.expired, deleteState store k)
    ∧ lookupState (deleteState store k) k = none
    ∧ ConsumeResult.expired ≠ ConsumeResult.ok e.verifier
    ∧ oauthCallbackGate now store (some c) st
        = (.badRequest "OAuth session expired. Please try linking again.",
           deleteState store k) := by
  have hgt : now - e.createdAt > TEN_MINUTES := by
    rw [hT]
    omega
  have h1 : consumePkce now store k = (.expired, deleteState store k) := by
    unfold consumePkce
    rw [hlook]
    simp only [if_pos hgt]
  have hcode : ¬((some c : Option String) = none ∨ (some c : Option String) = some "") := by
    simp [hc]
  refine ⟨h1, lookupState_deleteState store k, by simp, ?_⟩
  unfold oauthCallbackGate
  rw [if_neg hcode, hst, h1]

theorem claim_C3_pkce_expiry_witness :
    consumePkce 660000 [("s", ⟨"v", 0⟩)] "s"
        = (.expired, deleteState [("s", ⟨"v", 0⟩)] "s")
    ∧ lookupState (deleteState [("s", ⟨"v", 0⟩)] "s") "s" = none
    ∧ ConsumeResult.expired ≠ ConsumeResult.ok "v"
    ∧ oauthCallbackGate 660000 [("s", ⟨"v", 0⟩)] (some "x") (some "s")
        = (.badRequest "OAuth session expired. Please try linking again.",
           deleteState [("s", ⟨"v", 0⟩)] "s") :=
  claim_C3_pkce_expiry 660000 0 [("s", ⟨"v", 0⟩)] "s" ⟨"v", 0⟩ (some "s") "x"
    (by decide) (by decide) (by decide) (by decide) (by decide)

/-- C10: when the state query parameter is absent both OAuth endpoints fall
back to the literal key "unknown": a no-state login stores its verifier
under "unknown" and a second no-state login overwrites it, a no-state
callback behaves exactly like one with state "unknown" and consumes that
shared entry (completing the other session's exchange with its verifier),
and the successful callback links the account under external id
"unknown". -/
theorem claim_C10_unknown_state
    (now : Int) (store store2 : PkceStore) (vA vB : String)
    (code : Option String) (drivers : List Driver) (name : String)
    (cid : Option Nat) (tok : TokenData) (c : String) (hc : c ≠ "") :
    stateKey none = "unknown"
    ∧ lookupState (oauthLoginStore now store none vA) "unknown" = some ⟨vA, now⟩
    ∧ lookupState (oauthLoginStore now (oauthLoginStore now store none vA) none vB)
        "unknown" = some ⟨vB, now⟩
    ∧ oauthCallbackGate now store2 code none
        = oauthCallbackGate now store2 code (some "unknown")
    ∧ (oauthCallbackGate now
        (oauthLoginStore now (oauthLoginStore now store none vA) none vB)
        (some c) none).1 = .exchange vB
    ∧ callbackSuccessStore now drivers none name cid tok
        = linkDriver now drivers "unknown" name cid tok := by
  have hA := lookupState_loginStore now store none vA
  have hB := lookupState_loginStore now (oauthLoginStore now store none vA) none vB
  have hgate : oauthCallbackGate now store2 code none
      = oauthCallbackGate now store2 code (some "unknown") := by
    have hk : stateKey (some "unknown") = stateKey none := by decide
    unfold oauthCallbackGate
    rw [hk]
  have h5 : (oauthCallbackGate now
      (oauthLoginStore now (oauthLoginStore now store none vA) none vB)
      (some c) none).1 = .exchange vB := by
    have hcons := consumePkce_fresh now
      (oauthLoginStore now (oauthLoginStore now store none vA) none vB)
      "unknown" ⟨vB, now⟩ hB (by simp [TEN_MINUTES])
    have hcode : ¬((some c : Option String) = none ∨ (some c : Option String) = some "") := by
      simp [hc]
    unfold oauthCallbackGate
    rw [if_neg hcode, show stateKey none = "unknown" from rfl, hcons]
  exact ⟨rfl, hA, hB, hgate, h5, rfl⟩

theorem claim_C10_unknown_state_witness :
    stateKey none = "unknown"
    ∧ lookupState (oauthLoginStore 0 [] none "a") "unknown" = some ⟨"a", 0⟩
    ∧ lookupState (oauthLoginStore 0 (oauthLoginStore 0 [] none "a") none "b")
        "unknown" = some ⟨"b", 0⟩
    ∧ oauthCallbackGate 0 [] none none = oauthCallbackGate 0 [] none (some "unknown")
    ∧ (oauthCallbackGate 0
        (oauthLoginStore 0 (oauthLoginStore 0 [] none "a") none "b")
        (some "x") none).1 = .exchange "b"
    ∧ callbackSuccessStore 0 [] none "n" none ⟨"at", "rt", 10⟩
        = linkDriver 0 [] "unknown" "n" none ⟨"at", "rt", 10⟩ :=
  claim_C10_unknown_state 0 [] [] "a" "b" none [] "n" none ⟨"at", "rt", 10⟩ "x"
    (by decide)

/-! Token refresh service. -/

lemma updateFirstById_append (id : String) (f : Driver → Driver)
    (s1 s2 : List Driver) (d0 : Driver)
    (hs1 : ∀ e ∈ s1, e.discordId ≠ id) (hd0 : d0.discordId = id) :
    updateFirstById id f (s1 ++ d0 :: s2) = s1 ++ f d0 :: s2 := by
  induction s1 with
  | nil => simp [updateFirstById, hd0]
  | cons e rest ih =>
    have he : e.discordId ≠ id := hs1 e (List.mem_cons_self e rest)
    simp [updateFirstById, he,
      ih (fun x hx => hs1 x (List.mem_cons_of_mem e hx))]

/-- C5: inside the one-minute safety buffer the stored access token is
returned unchanged, the user record and the persistent store are untouched,
and no network call is made: the result does not depend on the refresh
response at all. -/
theorem claim_C5_token_cache
    (now : Int) (user : Driver) (stored : List Driver) (resp : RefreshResponse)
    (h : now < user.expiresAt - 60000) :
    getValidAccessToken now user stored resp
      = .ok (user.accessToken, user, stored) := by
  unfold getValidAccessToken
  rw [if_pos h]

theorem claim_C5_token_cache_witness :
    getValidAccessToken 0 ⟨"u", "n", none, "tokA", "r", 120000, none, none, none⟩
      [] ⟨true, "x", none, 100⟩
      = .ok ("tokA", ⟨"u", "n", none, "tokA", "r", 120000, none, none, none⟩, []) :=
  claim_C5_token_cache 0 ⟨"u", "n", none, "tokA", "r", 120000, none, none, none⟩
    [] ⟨true, "x", none, 100⟩ (by decide)

/-- C4: for an expired record and a successful refresh response,
getValidAccessToken returns the new access token, overwrites the token
fields (retaining the old refresh token when the response omits one), sets
expiresAt to now plus expires_in seconds in milliseconds, which is strictly
in the future for positive expires_in, and the store it hands back has the
matching stored record updated with exactly those fields. -/
theorem claim_C4_token_refresh
    (now : Int) (user : Driver) (s1 s2 : List Driver) (d0 : Driver)
    (resp : RefreshResponse)
    (hexp : ¬(now < user.expiresAt - 60000))
    (hok : resp.ok = true)
    (hd0 : d0.discordId = user.discordId)
    (hs1 : ∀ e ∈ s1, e.discordId ≠ user.discordId)
    (hpos : 0 < resp.expires_in) :
    getValidAccessToken now user (s1 ++ d0 :: s2) resp
      = .ok (resp.access_token,
          { user with
            accessToken := resp.access_token
            refreshToken := resp.refresh_token.getD user.refreshToken
            expiresAt := now + resp.expires_in * 1000 },
          s1 ++ { d0 with
            accessToken := resp.access_token
            refreshToken := resp.refresh_token.getD user.refreshToken
            expiresAt := now + resp.expires_in * 1000 } :: s2)
    ∧ now < now + resp.expires_in * 1000 := by
  constructor
  · have hok2 : ¬(resp.ok = false) := by simp [hok]
    simp only [getValidAccessToken, if_neg hexp, if_neg hok2]
    rw [updateFirstById_append user.discordId _ s1 s2 d0 hs1 hd0]
  · omega

theorem claim_C4_token_refresh_witness :
    getValidAccessToken 0 ⟨"u", "n", none, "old", "oldr", 0, none, none, none⟩
      ([] ++ ⟨"u", "n2", none, "x", "y", 5, some 7, none, none⟩ :: [])
      ⟨true, "newA", some "newR", 3600⟩
      = .ok ("newA",
          ⟨"u", "n", none, "newA", "newR", 0 + 3600 * 1000, none, none, none⟩,
          [] ++ ⟨"u", "n2", none, "newA", "newR", 0 + 3600 * 1000, some 7, none, none⟩ :: [])
    ∧ (0 : Int) < 0 + 3600 * 1000 :=
  claim_C4_token_refresh 0 ⟨"u", "n", none, "old", "oldr", 0, none, none, none⟩
    [] [] ⟨"u", "n2", none, "x", "y", 5, some 7, none, none⟩
    ⟨true, "newA", some "newR", 3600⟩
    (by decide) (by decide) (by decide) (by simp) (by decide)

/-- C6: when a fresh rating is obtained the pass stores it in lastIRating
and stores in lastChange the difference between the fresh value and the
previously stored value, the previous value defaulting to the fresh one, so
the first-ever observation always yields a delta of zero. -/
theorem claim_C6_rating_delta (d : Driver) (ir prev : Int) :
    (updateDriver d (some ir)).lastIRating = some ir
    ∧ (updateDriver d (some ir)).lastChange = some (ir - d.lastIRating.getD ir)
    ∧ (updateDriver { d with lastIRating := some prev } (some ir)).lastChange
        = some (ir - prev)
    ∧ (updateDriver { d with lastIRating := none } (some ir)).lastChange = some 0 := by
  refine ⟨rfl, rfl, rfl, ?_⟩
  simp [updateDriver]

/-- C7: every failure mode of the per-record rating fetch (an exception, a
non-ok response on either hop, a missing link, an empty series) yields null;
a record whose fetch failed passes through the update phase unchanged while
the records before and after it are still processed; and the results for
those other records are identical to a pass in which the failing record's
fetch had returned anything else, so a per-record failure never propagates. -/
theorem claim_C7_per_record_isolation
    (fetch fetch2 : Driver → Option Int) (f : ChartFetch)
    (l1 l2 : List Driver) (d : Driver)
    (hf : f.threw = true ∨ f.rootOk = false ∨ f.link = none
          ∨ f.chartOk = false ∨ f.data = [])
    (hfail : fetch d = none)
    (hagree : ∀ e : Driver, e ≠ d → fetch2 e = fetch e)
    (hd1 : d ∉ l1) (hd2 : d ∉ l2) :
    getCurrentIRating f = none
    ∧ ratingUpdatePass fetch (l1 ++ d :: l2)
        = ratingUpdatePass fetch l1 ++ d :: ratingUpdatePass fetch l2
    ∧ ratingUpdatePass fetch2 l1 = ratingUpdatePass fetch l1
    ∧ ratingUpdatePass fetch2 l2 = ratingUpdatePass fetch l2 := by
  refine ⟨?_, ?_, ?_, ?_⟩
  · unfold getCurrentIRating
    by_cases ht : f.threw = true
    · rw [if_pos ht]
    · rw [if_neg ht]
      by_cases hr : f.rootOk = false
      · rw [if_pos hr]
      · rw [if_neg hr]
        rcases hf with h | h | h | h | h
        · exact absurd h ht
        · exact absurd h hr
        · rw [h]
        · cases hl : f.link with
          | none => rfl
          | some s => rw [if_pos h]
        · cases hl : f.link with
          | none => rfl
          | some s =>
            by_cases hco : f.chartOk = false
            · rw [if_pos hco]
            · rw [if_neg hco, h]
              rfl
  · unfold ratingUpdatePass
    rw [List.map_append, List.map_cons, hfail]
    rfl
  · unfold ratingUpdatePass
    apply List.map_congr_left
    intro e he
    have hne : e ≠ d := fun hEq => hd1 (hEq ▸ he)
    rw [hagree e hne]
  · unfold ratingUpdatePass
    apply List.map_congr_left
    intro e he
    have hne : e ≠ d := fun hEq => hd2 (hEq ▸ he)
    rw [hagree e hne]

theorem claim_C7_per_record_isolation_witness :
    getCurrentIRating ⟨false, true, some "L", true, []⟩ = none
    ∧ ratingUpdatePass
        (fun e => if e = ⟨"x", "X", none, "a", "r", 0, some 100, none, none⟩
          then none else some 3000)
        ([⟨"y", "Y", none, "a", "r", 0, some 200, none, none⟩]
          ++ ⟨"x", "X", none, "a", "r", 0, some 100, none, none⟩
          :: [⟨"z", "Z", none, "a", "r", 0, some 300, none, none⟩])
      = ratingUpdatePass
          (fun e => if e = ⟨"x", "X", none, "a", "r", 0, some 100, none, none⟩
            then none else some 3000)
          [⟨"y", "Y", none, "a", "r", 0, some 200, none, none⟩]
        ++ ⟨"x", "X", none, "a", "r", 0, some 100, none, none⟩
        :: ratingUpdatePass
            (fun e => if e = ⟨"x", "X", none, "a", "r", 0, some 100, none, none⟩
              then none else some 3000)
            [⟨"z", "Z", none, "a", "r", 0, some 300, none, none⟩]
    ∧ ratingUpdatePass
        (fun e => if e = ⟨"x", "X", none, "a", "r", 0, some 100, none, none⟩
          then some 1 else some 3000)
        [⟨"y", "Y", none, "a", "r", 0, some 200, none, none⟩]
      = ratingUpdatePass
          (fun e => if e = ⟨"x", "X", none, "a", "r", 0, some 100, none, none⟩
            then none else some 3000)
          [⟨"y", "Y", none, "a", "r", 0, some 200, none, none⟩]
    ∧ ratingUpdatePass
        (fun e => if e = ⟨"x", "X", none, "a", "r", 0, some 100, none, none⟩
          then some 1 else some 3000)
        [⟨"z", "Z", none, "a", "r", 0, some 300, none, none⟩]
      = ratingUpdatePass
          (fun e => if e = ⟨"x", "X", none, "a", "r", 0, some 100, none, none⟩
            then none else some 3000)
          [⟨"z", "Z", none, "a", "r", 0, some 300, none, none⟩] :=
  claim_C7_per_record_isolation _ _ _ _ _ _
    (by simp) (by simp) (fun e he => by simp [he]) (by simp) (by simp)

/-- C9: after a successful callback the store holds exactly one record for
the linked external id; that record carries the new identity, name and
token fields, while its three historical fields come from the pre-existing
record when one was found (and are unset otherwise, via Option.bind); and
the records of every other id are exactly those of the previous store, so
externalId uniqueness is preserved. -/
theorem claim_C9_upsert_unique
    (now : Int) (drivers : List Driver) (id name : String)
    (cid : Option Nat) (tok : TokenData) :
    (linkDriver now drivers id name cid tok).countP (fun d => d.discordId == id) = 1
    ∧ (linkDriver now drivers id name cid tok).find? (fun d => d.discordId == id)
        = some (mkLinkedDriver now id name cid tok
            (drivers.find? (fun d => d.discordId == id)))
    ∧ (mkLinkedDriver now id name cid tok
        (drivers.find? (fun d => d.discordId == id))).lastIRating
        = (drivers.find? (fun d => d.discordId == id)).bind (fun e => e.lastIRating)
    ∧ (mkLinkedDriver now id name cid tok
        (drivers.find? (fun d => d.discordId == id))).lastChange
        = (drivers.find? (fun d => d.discordId == id)).bind (fun e => e.lastChange)
    ∧ (mkLinkedDriver now id name cid tok
        (drivers.find? (fun d => d.discordId == id))).lastRank
        = (drivers.find? (fun d => d.discordId == id)).bind (fun e => e.lastRank)
    ∧ (mkLinkedDriver now id name cid tok
        (drivers.find? (fun d => d.discordId == id))).discordId = id
    ∧ (mkLinkedDriver now id name cid tok
        (drivers.find? (fun d => d.discordId == id))).iracingName = name
    ∧ (mkLinkedDriver now id name cid tok
        (drivers.find? (fun d => d.discordId == id))).accessToken = tok.access_token
    ∧ (mkLinkedDriver now id name cid tok
        (drivers.find? (fun d => d.discordId == id))).refreshToken = tok.refresh_token
    ∧ (mkLinkedDriver now id name cid tok
        (drivers.find? (fun d => d.discordId == id))).expiresAt
        = now + tok.expires_in * 1000
    ∧ (linkDriver now drivers id name cid tok).filter (fun d => d.discordId != id)
        = drivers.filter (fun d => d.discordId != id) := by
  have hmemF : ∀ x ∈ drivers.filter (fun d => d.discordId != id),
      ¬((fun d => d.discordId == id) x = true) := by
    intro x hx
    have h2 := (List.mem_filter.mp hx).2
    simp only [bne_iff_ne, ne_eq] at h2
    simp [h2]
  refine ⟨?_, ?_, rfl, rfl, rfl, rfl, rfl, rfl, rfl, rfl, ?_⟩
  · unfold linkDriver
    rw [List.countP_append, List.countP_eq_zero.mpr hmemF]
    simp [mkLinkedDriver, List.countP_cons]
  · unfold linkDriver
    have h1 : (drivers.filter (fun d => d.discordId != id)).find?
        (fun d => d.discordId == id) = none := List.find?_eq_none.mpr hmemF
    rw [List.find?_append, h1, Option.none_or,
      List.find?_cons_of_pos _ (by simp [mkLinkedDriver])]
  · unfold linkDriver
    rw [List.filter_append,
      List.filter_eq_self.mpr (fun a ha => (List.mem_filter.mp ha).2)]
    simp [mkLinkedDriver]

/-! Stability and rank lemmas for the ranking pass. -/

lemma filter_orderedInsert (k : Int) (d : Driver) (l : List Driver) :
    (List.orderedInsert ratingGE d l).filter (fun e => ratingKey e == k)
      = if ratingKey d == k
        then d :: l.filter (fun e => ratingKey e == k)
        else l.filter (fun e => ratingKey e == k) := by
  induction l with
  | nil => simp [List.orderedInsert, List.filter_cons]
  | cons b t ih =>
    unfold List.orderedInsert
    by_cases h : ratingGE d b
    · rw [if_pos h]
      simp only [List.filter_cons]
    · rw [if_neg h]
      have hlt : ratingKey d < ratingKey b := not_le.mp (by simpa [ratingGE] using h)
      simp only [List.filter_cons, ih]
      by_cases hd : ratingKey d = k
      · have hb : ¬(ratingKey b = k) := by omega
        simp [beq_iff_eq, hd, hb]
      · by_cases hb : ratingKey b = k <;> simp [beq_iff_eq, hd, hb]

lemma filter_sortByRatingDesc (k : Int) (l : List Driver) :
    (sortByRatingDesc l).filter (fun e => ratingKey e == k)
      = l.filter (fun e => ratingKey e == k) := by
  induction l with
  | nil => rfl
  | cons d t ih =>
    unfold sortByRatingDesc at ih ⊢
    simp only [List.insertionSort]
    rw [filter_orderedInsert]
    by_cases hd : ratingKey d = k <;> simp [List.filter_cons, beq_iff_eq, hd, ih]

lemma announceFrom_fst_lastRank (i : Nat) (l : List Driver) :
    (announceFrom i l).1.map (fun d => d.lastRank)
      = (List.range' (i + 1) l.length).map some := by
  induction l generalizing i with
  | nil => rfl
  | cons d t ih =>
    simp only [announceFrom, List.map_cons, List.length_cons, List.range'_succ]
    rw [ih (i + 1)]
    rfl

lemma announceFrom_fst_length (i : Nat) (l : List Driver) :
    (announceFrom i l).1.length = l.length := by
  have h := congrArg List.length (announceFrom_fst_lastRank i l)
  simpa using h

lemma announceFrom_fst_ratingKey (i : Nat) (l : List Driver) :
    (announceFrom i l).1.map ratingKey = l.map ratingKey := by
  induction l generalizing i with
  | nil => rfl
  | cons d t ih =>
    simp only [announceFrom, List.map_cons]
    rw [ih (i + 1)]
    rfl

lemma sorted_iff_keys (x : List Driver) :
    List.Sorted ratingGE x
      ↔ List.Pairwise (fun a b : Int => b ≤ a) (x.map ratingKey) := by
  rw [List.pairwise_map]
  exact Iff.rfl

lemma announceFrom_sorted (i : Nat) (l : List Driver)
    (h : List.Sorted ratingGE l) :
    List.Sorted ratingGE (announceFrom i l).1 := by
  rw [sorted_iff_keys] at h ⊢
  rw [announceFrom_fst_ratingKey]
  exact h

lemma announceFrom_noop (i : Nat) (l : List Driver)
    (h : l.map (fun d => d.lastRank) = (List.range' (i + 1) l.length).map some) :
    announceFrom i l = (l, []) := by
  induction l generalizing i with
  | nil => rfl
  | cons d t ih =>
    simp only [List.map_cons, List.length_cons, List.range'_succ] at h
    have h1 : d.lastRank = some (i + 1) := by
      have := congrArg (fun x => x.headI) h
      simpa using this
    have h2 : t.map (fun d => d.lastRank) = (List.range' (i + 1 + 1) t.length).map some := by
      have := congrArg (fun x => x.tail) h
      simpa using this
    have hstep : announceStep i d = (d, none) := by
      obtain ⟨f1, f2, f3, f4, f5, f6, f7, f8, f9⟩ := d
      simp only at h1
      subst h1
      simp [announceStep]
    simp [announceFrom, hstep, ih (i + 1) h2]

/-- C1 counterexample: the rank-change pass of the SQLite variant
(checkForPositionChanges, src/src/announcer.js) refutes the claim as
stated for every ranking pass: on the claim's own example — ratings
1500, 2000, 1800 with stored ranks 2, 1, 3 — it sends two messages, not
exactly one, and in particular it sends one for the 1500 driver whose rank
worsened from 2 to 3 (movement -1), where the claim requires no event for
a worsened rank. -/
theorem claim_C1_counterexample :
    checkForPositionChanges
        [⟨1, "A", 1500, some 2⟩, ⟨2, "B", 2000, some 1⟩, ⟨3, "C", 1800, some 3⟩]
      = ([⟨2, "B", 2000, some 1⟩, ⟨3, "C", 1800, some 2⟩, ⟨1, "A", 1500, some 3⟩],
         [⟨"C", 3, 2, 1⟩, ⟨"A", 2, 3, -1⟩])
    ∧ (checkForPositionChanges
        [⟨1, "A", 1500, some 2⟩, ⟨2, "B", 2000, some 1⟩,
         ⟨3, "C", 1800, some 3⟩]).2.length = 2
    ∧ (positionChangeStep 2 ⟨1, "A", 1500, some 2⟩).2 = some ⟨"A", 2, 3, -1⟩ := by
  decide

/-- C1 amended: in the cron ranking pass over the linked-account list
(the rank-gain loop of the cron variant, which spec section 4.5 describes)
an event is pushed for the record at a sorted position exactly when the
record has a stored lastRank and its new rank (index plus one) is strictly
smaller, so no event fires there for an unchanged or worsened rank; for
three accounts rated 1500, 2000, 1800 with prior ranks 2, 1, 3 that pass
yields new ranks 3, 1, 2 and exactly one moved-up event, for the 1800
account that went from rank 3 to rank 2.  The checkForPositionChanges pass
of the SQLite variant instead sends a message exactly when the stored
last_rank is truthy and differs from the new rank, in either direction. -/
theorem claim_C1_rank_gain_events :
    (∀ (idx : Nat) (d : Driver),
      ((announceStep idx d).2).isSome = true
        ↔ ∃ r, d.lastRank = some r ∧ idx + 1 < r)
    ∧ rankAndAnnounce
        [⟨"a", "A", none, "", "", 0, some 1500, none, some 2⟩,
         ⟨"b", "B", none, "", "", 0, some 2000, none, some 1⟩,
         ⟨"c", "C", none, "", "", 0, some 1800, none, some 3⟩]
      = ([⟨"b", "B", none, "", "", 0, some 2000, none, some 1⟩,
          ⟨"c", "C", none, "", "", 0, some 1800, none, some 2⟩,
          ⟨"a", "A", none, "", "", 0, some 1500, none, some 3⟩],
         [⟨"C", 1, 2, some 1800⟩])
    ∧ (∀ (idx : Nat) (d : DriverRow),
      ((positionChangeStep idx d).2).isSome = true
        ↔ ∃ r, d.last_rank = some r ∧ r ≠ 0 ∧ r ≠ idx + 1) := by
  refine ⟨?_, by decide, ?_⟩
  · intro idx d
    cases hr : d.lastRank with
    | none => simp [announceStep, hr]
    | some r =>
      by_cases h : idx + 1 < r
      · simp [announceStep, hr, h]
      · simp [announceStep, hr, h]
  · intro idx d
    cases hr : d.last_rank with
    | none => simp [positionChangeStep, hr]
    | some r =>
      by_cases h : r ≠ 0 ∧ r ≠ idx + 1
      · simp [positionChangeStep, hr, h]
      · simp only [positionChangeStep, hr, if_neg h, Option.isSome_none]
        constructor
        · intro hfalse
          exact absurd hfalse (by simp)
        · rintro ⟨r2, hr2, h2⟩
          cases hr2
          exact absurd h2 h

/-- C8: the ranking pass sorts the list descending by lastIRating with
unset treated as 0, assigns lastRank = index + 1 (dense, 1-based), keeps
tied records in pre-sort order (for every key value the records with that
key appear exactly in their input order) while permuting nothing away; and
repeating the pass on its own output — with or without re-fetching the
unchanged rating values — leaves the relative order and the assigned ranks
unchanged. -/
theorem claim_C8_sort_and_rank (l : List Driver) :
    List.Sorted ratingGE (rankAndAnnounce l).1
    ∧ (rankAndAnnounce l).1.map (fun d => d.lastRank)
        = (List.range' 1 l.length).map some
    ∧ (∀ k : Int, (sortByRatingDesc l).filter (fun e => ratingKey e == k)
        = l.filter (fun e => ratingKey e == k))
    ∧ (sortByRatingDesc l).Perm l
    ∧ (rankAndAnnounce (rankAndAnnounce l).1).1 = (rankAndAnnounce l).1
    ∧ (rankAndAnnounce (ratingUpdatePass (fun d => d.lastIRating)
        (rankAndAnnounce l).1)).1.map (fun d => (d.discordId, d.lastRank))
        = (rankAndAnnounce l).1.map (fun d => (d.discordId, d.lastRank)) := by
  have hsorted : List.Sorted ratingGE (rankAndAnnounce l).1 :=
    announceFrom_sorted 0 (sortByRatingDesc l) (List.sorted_insertionSort ratingGE l)
  have hranks : (rankAndAnnounce l).1.map (fun d => d.lastRank)
      = (List.range' 1 l.length).map some := by
    show (announceFrom 0 (sortByRatingDesc l)).1.map (fun d => d.lastRank) = _
    rw [announceFrom_fst_lastRank,
      show (sortByRatingDesc l).length = l.length from
        List.length_insertionSort ratingGE l]
  have hlen : (rankAndAnnounce l).1.length = l.length := by
    have h := congrArg List.length hranks
    simpa using h
  have hidem : (rankAndAnnounce (rankAndAnnounce l).1).1 = (rankAndAnnounce l).1 := by
    show (announceFrom 0 (sortByRatingDesc (rankAndAnnounce l).1)).1 = _
    rw [show sortByRatingDesc (rankAndAnnounce l).1 = (rankAndAnnounce l).1 from
        List.Sorted.insertionSort_eq hsorted,
      announceFrom_noop 0 _ (by simpa [hlen] using hranks)]
  have hkey : ∀ d : Driver, ratingKey (updateDriver d d.lastIRating) = ratingKey d := by
    intro d
    cases h : d.lastIRating <;> simp [updateDriver, ratingKey, h]
  have hrank2 : ∀ d : Driver, (updateDriver d d.lastIRating).lastRank = d.lastRank := by
    intro d
    cases h : d.lastIRating <;> simp [updateDriver, h]
  have hid2 : ∀ d : Driver, (updateDriver d d.lastIRating).discordId = d.discordId := by
    intro d
    cases h : d.lastIRating <;> simp [updateDriver, h]
  have hmapsorted : List.Sorted ratingGE
      ((rankAndAnnounce l).1.map (fun d => updateDriver d d.lastIRating)) := by
    apply List.Pairwise.map _ _ hsorted
    intro a b hab
    show ratingKey (updateDriver b b.lastIRating) ≤ ratingKey (updateDriver a a.lastIRating)
    rw [hkey b, hkey a]
    exact hab
  have hranks2 : ((rankAndAnnounce l).1.map (fun d => updateDriver d d.lastIRating)).map
        (fun d => d.lastRank)
      = (List.range' 1 ((rankAndAnnounce l).1.map
          (fun d => updateDriver d d.lastIRating)).length).map some := by
    rw [List.map_map, List.length_map]
    have hcomp : ((fun d : Driver => d.lastRank)
        ∘ (fun d => updateDriver d d.lastIRating)) = fun d : Driver => d.lastRank :=
      funext (fun d => hrank2 d)
    rw [hcomp, hlen]
    exact hranks
  have hfull : (rankAndAnnounce (ratingUpdatePass (fun d => d.lastIRating)
      (rankAndAnnounce l).1)).1.map (fun d => (d.discordId, d.lastRank))
      = (rankAndAnnounce l).1.map (fun d => (d.discordId, d.lastRank)) := by
    show (announceFrom 0 (sortByRatingDesc ((rankAndAnnounce l).1.map
        (fun d => updateDriver d d.lastIRating)))).1.map
        (fun d => (d.discordId, d.lastRank)) = _
    unfold sortByRatingDesc
    rw [List.Sorted.insertionSort_eq hmapsorted,
      announceFrom_noop 0 _ (by simpa using hranks2)]
    rw [List.map_map]
    apply List.map_congr_left
    intro d hd
    show ((updateDriver d d.lastIRating).discordId,
      (updateDriver d d.lastIRating).lastRank) = (d.discordId, d.lastRank)
    rw [hid2 d, hrank2 d]
  exact ⟨hsorted, hranks, fun k => filter_sortByRatingDesc k l,
    List.perm_insertionSort ratingGE l, hidem, hfull⟩
